import Mathlib

/-!
Shallow embedding of the AWS provisioner of alexandrevilain/inletsctl
(two Go source files: pkg/provision/aws.go and an unnamed second copy).

Modelling conventions:
- The EC2 client is an oracle (structure of response functions); each
  provisioner operation returns its result together with the list of API
  calls it issued, in order, so that claims about which backend calls
  happen (and in what order) are statable.
- Pointer-typed SDK response fields that the Go code dereferences
  unconditionally (ImageId, CreationDate, VpcId, IsDefault, GroupId,
  InstanceId, State.Name) are modelled as plain values; the one field the
  code nil-checks (PublicIpAddress) is modelled as Option.
- A Go runtime panic (index out of range on an empty slice) is modelled
  by the error value Err.goPanic, distinct from errors the code returns.
- time.Parse with the RFC3339 layout is an external library call; it is
  modelled as a parameter parse : String -> Option Nat (none = parse
  error, some t = parsed time, Nat as a total order on instants).
- sort.Slice with the strict comparator CreationDate.After is an
  unspecified comparison sort; it is modelled by List.insertionSort over
  the induced total preorder (later-or-equal creation date first). Every
  property proved about the head of the sorted list holds for any list
  sorted under that preorder, so the choice of sort is immaterial.
-/

/-- An EC2 DescribeImages filter (the SDK type with Name and Values; named
EC2Filter here because the root name is taken by the Mathlib Filter type). -/
structure EC2Filter where
  name : String
  values : List String
deriving DecidableEq

/-- An image record as returned by DescribeImages (fields the code reads). -/
structure EC2Image where
  imageId : String
  creationDate : String
deriving DecidableEq

/-- A VPC record as returned by DescribeVpcs (fields the code reads). -/
structure Vpc where
  vpcId : String
  isDefault : Bool
deriving DecidableEq

/-- An ingress permission (ec2.IpPermission: protocol, port range, CIDR ranges). -/
structure IpPermission where
  ipProtocol : String
  fromPort : Int
  toPort : Int
  ipRanges : List String
deriving DecidableEq

/-- An instance record as returned inside a reservation (fields the code reads).
PublicIpAddress is the one field the code checks for nil, so it is an Option. -/
structure EC2Instance where
  instanceId : String
  publicIpAddress : Option String
  stateName : String
deriving DecidableEq

/-- A reservation: the wrapper grouping instances in create/describe responses. -/
structure Reservation where
  instances : List EC2Instance
deriving DecidableEq

/-- The RunInstances request the code builds (aws.go lines 68-94): image, plan,
single instance, base64 user data, security groups, one 20 GiB volume at
/dev/sdh, and a name tag. -/
structure RunInstancesInput where
  imageId : String
  instanceType : String
  minCount : Int
  maxCount : Int
  userData : String
  securityGroupIds : List String
  deviceName : String
  volumeSize : Int
  nameTag : String
deriving DecidableEq

/-- The backend API calls the provisioner can issue, with their payloads. -/
inductive ApiCall where
  | describeImages : List EC2Filter → ApiCall
  | describeVpcs : ApiCall
  | createDefaultVpc : ApiCall
  | createSecurityGroupCall : String → String → String → ApiCall
  | authorizeSecurityGroupIngress : String → List IpPermission → ApiCall
  | runInstances : RunInstancesInput → ApiCall
  | describeInstances : String → ApiCall
  | terminateInstances : String → ApiCall
deriving DecidableEq

/-- Error vocabulary. The Go code only ever produces backend (an error value
returned by an SDK call), parseIntErr (strconv.ParseInt failure, carrying the
offending string), and goPanic (runtime panic, e.g. index out of range). The
constructors validation and notFound are the typed errors of the spec error
taxonomy, included so that claims about them are statable; the code never
constructs them. -/
inductive Err where
  | backend : String → Err
  | parseIntErr : String → Err
  | validation : Err
  | notFound : Err
  | goPanic : String → Err
deriving DecidableEq

/-- The EC2 client as a stateless oracle: one response function per API used.
A value of this type is the backend state a sequence of calls runs against. -/
structure EC2Client where
  describeImages : List EC2Filter → Except String (List EC2Image)
  describeVpcs : Except String (List Vpc)
  createDefaultVpc : Except String Vpc
  createSecurityGroup : String → String → String → Except String String
  authorizeSecurityGroupIngress : String → List IpPermission → Except String Unit
  runInstances : RunInstancesInput → Except String Reservation
  describeInstances : String → Except String (List Reservation)
  terminateInstances : String → Except String Unit

/-- Modelled from the spec: the ProvisionedHost result type (defined in the
repository outside the two provided files). Spec section 6: id, address (may
be empty), status. -/
structure ProvisionedHost where
  ID : String
  IP : String
  Status : String
deriving DecidableEq

/-- Modelled from the spec: the BasicHost request type (defined in the
repository outside the two provided files). Spec section 6: name, OS
selector, plan, boot script payload, and a string-keyed extra-parameter map. -/
structure BasicHost where
  Name : String
  OS : String
  Plan : String
  UserData : String
  Additional : List (String × String)

/-- Modelled from the spec: the distinguished canonical status value for a
running instance (defined in the repository outside the two provided files).
Spec section 3: provider state running maps to a single canonical
active value. -/
def ActiveStatus : String := "active"

/-- Go map indexing with the string zero value for a missing key,
as in host.Additional[k]. -/
def mapGet (m : List (String × String)) (k : String) : String :=
  match m.lookup k with
  | some v => v
  | none => ""

/-- The parsed image candidate record (the ami struct of aws.go lines 21-24). -/
structure Ami where
  ID : String
  CreationDate : Nat
deriving DecidableEq

/-- The four DescribeImages filters findAMI sends (aws.go lines 129-148):
exact name, public visibility, x86_64 architecture, state available. -/
def findAMIFilters (name : String) : List EC2Filter :=
  [ { name := "name", values := [name] },
    { name := "is-public", values := ["true"] },
    { name := "architecture", values := ["x86_64"] },
    { name := "state", values := ["available"] } ]

/-- The candidate-collection loop of findAMI (aws.go lines 155-165): walk the
response in order, parse each creation date, and on the FIRST parse failure
stop the loop entirely (the Go code says break, not continue), keeping only
the candidates collected so far. -/
def collectAmis (parse : String → Option Nat) : List EC2Image → List Ami
  | [] => []
  | img :: rest =>
    match parse img.creationDate with
    | none => []
    | some t => { ID := img.imageId, CreationDate := t } :: collectAmis parse rest

/-- The sort order modelling sort.Slice at aws.go lines 168-170: the Go less
relation is images[i].CreationDate.After(images[j].CreationDate), i.e.
strictly later dates first; the induced total preorder used by the model
sort is later-or-equal first. -/
def amiBefore (a b : Ami) : Prop := b.CreationDate ≤ a.CreationDate

instance : DecidableRel amiBefore := fun a b => Nat.decLe b.CreationDate a.CreationDate

instance : IsTotal Ami amiBefore := ⟨fun a b => Nat.le_total b.CreationDate a.CreationDate⟩

instance : IsTrans Ami amiBefore := ⟨fun _ _ _ h1 h2 => Nat.le_trans h2 h1⟩

/-- findAMI (aws.go lines 128-173): query DescribeImages with the four
filters, collect candidates until the first unparsable date, sort latest
first, and return the id of the first element. On an empty collected list
the Go code reads images[0] out of bounds, which panics. -/
def findAMI (client : EC2Client) (parse : String → Option Nat) (name : String) :
    Except Err String × List ApiCall :=
  let input := findAMIFilters name
  match client.describeImages input with
  | .error e => (.error (.backend e), [.describeImages input])
  | .ok imgs =>
    let images := collectAmis parse imgs
    match images.insertionSort amiBefore with
    | [] => (.error (.goPanic "index out of range"), [.describeImages input])
    | a :: _ => (.ok a.ID, [.describeImages input])

/-- Decimal digit accumulation for parseInt64; none on any non-digit. -/
def parseDigitsAux : List Char → Nat → Option Nat
  | [], acc => some acc
  | c :: cs, acc =>
    if c.isDigit then parseDigitsAux cs (acc * 10 + (c.toNat - 48)) else none

/-- A nonempty all-digit character list read as a Nat; none otherwise. -/
def parseNatDigits : List Char → Option Nat
  | [] => none
  | c :: cs => parseDigitsAux (c :: cs) 0

/-- Model of the library call strconv.ParseInt(s, 10, 64) used at aws.go line
53: an optional sign followed by one or more decimal digits, with the value
required to fit in int64; every other input (empty string, stray characters,
out of range) is a parse error, modelled as none. -/
def parseInt64 (s : String) : Option Int :=
  match s.toList with
  | [] => none
  | c :: cs =>
    if c = '+' then
      (parseNatDigits cs).bind (fun n => if n ≤ 2 ^ 63 - 1 then some (n : Int) else none)
    else if c = '-' then
      (parseNatDigits cs).bind (fun n => if n ≤ 2 ^ 63 then some (-(n : Int)) else none)
    else
      (parseNatDigits (c :: cs)).bind
        (fun n => if n ≤ 2 ^ 63 - 1 then some (n : Int) else none)

/-- The standard base64 alphabet used by base64.StdEncoding. -/
def base64Alphabet : List Char :=
  "ABCDEFGHIJKLMNOPQRSTUVWXYZabcdefghijklmnopqrstuvwxyz0123456789+/".toList

/-- Character for a six-bit value. -/
def base64Char (n : Nat) : Char := base64Alphabet.getD n 'A'

/-- Standard base64 with padding over a list of byte values, three bytes to
four characters (model of base64.StdEncoding.EncodeToString). -/
def base64Chunks : List Nat → List Char
  | [] => []
  | [a] => [base64Char (a / 4), base64Char (a % 4 * 16), '=', '=']
  | [a, b] =>
    [base64Char (a / 4), base64Char (a % 4 * 16 + b / 16), base64Char (b % 16 * 4), '=']
  | a :: b :: c :: rest =>
    base64Char (a / 4) :: base64Char (a % 4 * 16 + b / 16) ::
      base64Char (b % 16 * 4 + c / 64) :: base64Char (c % 64) :: base64Chunks rest

/-- Base64 of the UTF-8 bytes of a string (aws.go line 73). -/
def base64Encode (s : String) : String :=
  String.mk (base64Chunks (s.toUTF8.toList.map (fun b => b.toNat)))

/-- The status normalization inlined at aws.go lines 244-247: provider state
running becomes ActiveStatus; every other state string passes through
unchanged. A pure total function on strings. -/
def normalizeState (state : String) : String :=
  if state = "running" then ActiveStatus else state

/-- reservationToPrivionedHost (aws.go lines 236-254): reads Instances[0] of
the reservation (a panic when the reservation holds no instances), takes the
public IP when non-nil (the empty string otherwise), and normalizes the
state name. -/
def reservationToPrivionedHost (reservation : Reservation) : Except Err ProvisionedHost :=
  match reservation.instances with
  | [] => .error (.goPanic "index out of range")
  | firstInstance :: _ =>
    let ip : String :=
      match firstInstance.publicIpAddress with
      | some s => s
      | none => ""
    .ok { ID := firstInstance.instanceId, IP := ip,
          Status := normalizeState firstInstance.stateName }

/-- The default-VPC search loop of getOrCreateDefaultVPC (aws.go lines
181-185): first VPC flagged default, in listing order. -/
def findDefaultVpc : List Vpc → Option Vpc
  | [] => none
  | v :: rest => if v.isDefault then some v else findDefaultVpc rest

/-- getOrCreateDefaultVPC (aws.go lines 175-194): list the VPCs and return
the id of the first one flagged default; only when none is flagged default,
issue CreateDefaultVpc and return the id of the created VPC. -/
def getOrCreateDefaultVPC (client : EC2Client) : Except Err String × List ApiCall :=
  match client.describeVpcs with
  | .error e => (.error (.backend e), [.describeVpcs])
  | .ok vpcs =>
    match findDefaultVpc vpcs with
    | some v => (.ok v.vpcId, [.describeVpcs])
    | none =>
      match client.createDefaultVpc with
      | .error e => (.error (.backend e), [.describeVpcs, .createDefaultVpc])
      | .ok vpc => (.ok vpc.vpcId, [.describeVpcs, .createDefaultVpc])

/-- The three ingress rules authorized at aws.go lines 208-231: TCP 80, TCP
443 and TCP inletsPort, each with the single source range 0.0.0.0/0. -/
def ingressPermissions (inletsPort : Int) : List IpPermission :=
  [ { ipProtocol := "tcp", fromPort := 80, toPort := 80, ipRanges := ["0.0.0.0/0"] },
    { ipProtocol := "tcp", fromPort := 443, toPort := 443, ipRanges := ["0.0.0.0/0"] },
    { ipProtocol := "tcp", fromPort := inletsPort, toPort := inletsPort,
      ipRanges := ["0.0.0.0/0"] } ]

/-- createSecurityGroup (aws.go lines 196-234): create the group named
inlets-sg-<hostname> (fmt.Sprintf with a string verb) in the given VPC, then
authorize the three ingress rules. The function performs no validation of
inletsPort before calling the backend. -/
def createSecurityGroup (client : EC2Client) (vpcID hostname : String) (inletsPort : Int) :
    Except Err String × List ApiCall :=
  let groupName := "inlets-sg-" ++ hostname
  let createCall := ApiCall.createSecurityGroupCall "Inlets security group" groupName vpcID
  match client.createSecurityGroup "Inlets security group" groupName vpcID with
  | .error e => (.error (.backend e), [createCall])
  | .ok groupId =>
    let authCall := ApiCall.authorizeSecurityGroupIngress groupId (ingressPermissions inletsPort)
    match client.authorizeSecurityGroupIngress groupId (ingressPermissions inletsPort) with
    | .error e => (.error (.backend e), [createCall, authCall])
    | .ok _ => (.ok groupId, [createCall, authCall])

/-- Provision (aws.go lines 47-101): image resolution first, then tunnel-port
parsing from the extra-parameter map, then VPC bootstrap, security group
creation, and RunInstances; a successful run result is normalized by
reservationToPrivionedHost. Each step aborts the sequence on error. -/
def Provision (client : EC2Client) (parse : String → Option Nat) (host : BasicHost) :
    Except Err ProvisionedHost × List ApiCall :=
  match findAMI client parse host.OS with
  | (.error e, t1) => (.error e, t1)
  | (.ok amiId, t1) =>
    match parseInt64 (mapGet host.Additional "inlets-port") with
    | none => (.error (.parseIntErr (mapGet host.Additional "inlets-port")), t1)
    | some inletsPort =>
      match getOrCreateDefaultVPC client with
      | (.error e, t2) => (.error e, t1 ++ t2)
      | (.ok vpcID, t2) =>
        match createSecurityGroup client vpcID host.Name inletsPort with
        | (.error e, t3) => (.error e, t1 ++ t2 ++ t3)
        | (.ok securityGroupID, t3) =>
          let input : RunInstancesInput :=
            { imageId := amiId, instanceType := host.Plan, minCount := 1, maxCount := 1,
              userData := base64Encode host.UserData,
              securityGroupIds := [securityGroupID],
              deviceName := "/dev/sdh", volumeSize := 20, nameTag := host.Name }
          match client.runInstances input with
          | .error e => (.error (.backend e), t1 ++ t2 ++ t3 ++ [.runInstances input])
          | .ok runResult =>
            (reservationToPrivionedHost runResult, t1 ++ t2 ++ t3 ++ [.runInstances input])

/-- Status (aws.go lines 104-117): DescribeInstances for the id, then read
Reservations[0] (a panic when the response holds no reservations) and
normalize it. The code performs no emptiness check of its own. -/
def Status (client : EC2Client) (id : String) : Except Err ProvisionedHost × List ApiCall :=
  match client.describeInstances id with
  | .error e => (.error (.backend e), [.describeInstances id])
  | .ok reservations =>
    match reservations with
    | [] => (.error (.goPanic "index out of range"), [.describeInstances id])
    | r :: _ => (reservationToPrivionedHost r, [.describeInstances id])

/-- Delete (aws.go lines 120-126): TerminateInstances for the id; any backend
error is surfaced unchanged. -/
def Delete (client : EC2Client) (id : String) : Except Err Unit × List ApiCall :=
  match client.terminateInstances id with
  | .error e => (.error (.backend e), [.terminateInstances id])
  | .ok _ => (.ok (), [.terminateInstances id])

namespace Part000

/-- The candidate-collection loop of findAMI in the second source file
(part_000 lines 142-152): same walk as aws.go, stopping at the first
unparsable creation date. -/
def collectAmis (parse : String → Option Nat) : List EC2Image → List Ami
  | [] => []
  | img :: rest =>
    match parse img.creationDate with
    | none => []
    | some t => { ID := img.imageId, CreationDate := t } :: collectAmis parse rest

/-- findAMI of the second source file (part_000 lines 115-160): same filters,
same collection loop, same latest-first sort, same unchecked read of the
first element. -/
def findAMI (client : EC2Client) (parse : String → Option Nat) (name : String) :
    Except Err String × List ApiCall :=
  let input := findAMIFilters name
  match client.describeImages input with
  | .error e => (.error (.backend e), [.describeImages input])
  | .ok imgs =>
    let images := collectAmis parse imgs
    match images.insertionSort amiBefore with
    | [] => (.error (.goPanic "index out of range"), [.describeImages input])
    | a :: _ => (.ok a.ID, [.describeImages input])

/-- reservationToPrivionedHost of the second source file (part_000 lines
162-180): reads Instances[0], nil-checks the public IP, and maps the state
running to ActiveStatus inline. -/
def reservationToPrivionedHost (reservation : Reservation) : Except Err ProvisionedHost :=
  match reservation.instances with
  | [] => .error (.goPanic "index out of range")
  | firstInstance :: _ =>
    let ip : String :=
      match firstInstance.publicIpAddress with
      | some s => s
      | none => ""
    .ok { ID := firstInstance.instanceId, IP := ip,
          Status :=
            if firstInstance.stateName = "running" then ActiveStatus
            else firstInstance.stateName }

end Part000

/-- A concrete stand-in for RFC3339 parsing, used only by the concrete test
backends below: three fixed timestamps parse to their Unix seconds; every
other string is a parse failure. -/
def demoParse (s : String) : Option Nat :=
  if s = "2023-01-01T00:00:00Z" then some 1672531200
  else if s = "2023-03-01T00:00:00Z" then some 1677628800
  else if s = "2023-05-01T00:00:00Z" then some 1682899200
  else none

/-- Image fixture with the oldest parseable date. -/
def img1 : EC2Image := { imageId := "img-1", creationDate := "2023-01-01T00:00:00Z" }

/-- Image fixture with a newer parseable date. -/
def img2 : EC2Image := { imageId := "img-2", creationDate := "2023-03-01T00:00:00Z" }

/-- Image fixture with an unparsable creation date. -/
def imgBad : EC2Image := { imageId := "img-3", creationDate := "not-a-date" }

/-- First of two image fixtures tied at the same creation date. -/
def imgTiedA : EC2Image := { imageId := "img-a", creationDate := "2023-03-01T00:00:00Z" }

/-- Second of two image fixtures tied at the same creation date. -/
def imgTiedB : EC2Image := { imageId := "img-b", creationDate := "2023-03-01T00:00:00Z" }

/-- VPC fixture flagged as the default network. -/
def vpcDefault : Vpc := { vpcId := "vpc-1", isDefault := true }

/-- A concrete backend on which every call succeeds with simple fixed data. -/
def okClient : EC2Client :=
  { describeImages := fun _ => .ok [img2],
    describeVpcs := .ok [vpcDefault],
    createDefaultVpc := .ok { vpcId := "vpc-new", isDefault := true },
    createSecurityGroup := fun _ _ _ => .ok "sg-1",
    authorizeSecurityGroupIngress := fun _ _ => .ok (),
    runInstances := fun _ =>
      .ok { instances := [{ instanceId := "i-0001", publicIpAddress := some "203.0.113.5",
                            stateName := "pending" }] },
    describeInstances := fun _ =>
      .ok [{ instances := [{ instanceId := "i-0001", publicIpAddress := some "203.0.113.5",
                             stateName := "running" }] }],
    terminateInstances := fun _ => .ok () }

/-- Backend whose filtered image listing is empty. -/
def emptyImagesClient : EC2Client :=
  { okClient with describeImages := fun _ => .ok [] }

/-- Backend whose image listing starts with an unparsable creation date,
followed by two parseable candidates. -/
def badFirstClient : EC2Client :=
  { okClient with describeImages := fun _ => .ok [imgBad, img1, img2] }

/-- Backend whose image listing holds exactly two candidates tied at the
maximal creation date. -/
def tiedClient : EC2Client :=
  { okClient with describeImages := fun _ => .ok [imgTiedA, imgTiedB] }

/-- Backend reporting zero reservations for every DescribeInstances query. -/
def noReservationsClient : EC2Client :=
  { okClient with describeInstances := fun _ => .ok [] }

/-- Host request whose extra-parameter map lacks the tunnel-port key. -/
def hostNoPort : BasicHost :=
  { Name := "host1", OS := "ubuntu", Plan := "t2.micro", UserData := "",
    Additional := [] }

/-- Every collected candidate originates from a listed image whose creation
date parsed to the candidate date. -/
theorem mem_collectAmis {parse : String → Option Nat} {imgs : List EC2Image} {a : Ami}
    (h : a ∈ collectAmis parse imgs) :
    ∃ i ∈ imgs, i.imageId = a.ID ∧ parse i.creationDate = some a.CreationDate := by
  induction imgs with
  | nil => simp [collectAmis] at h
  | cons img rest ih =>
    simp only [collectAmis] at h
    cases hp : parse img.creationDate with
    | none => rw [hp] at h; simp at h
    | some t =>
      rw [hp] at h
      rcases List.mem_cons.mp h with h1 | h2
      · exact ⟨img, List.mem_cons_self _ _, by rw [h1], by rw [hp, h1]⟩
      · rcases ih h2 with ⟨i, hi, hid, hdate⟩
        exact ⟨i, List.mem_cons_of_mem _ hi, hid, hdate⟩

/-- When every listed image has a parseable creation date, each listed image
appears among the collected candidates with its parsed date. -/
theorem collectAmis_mem_of_all {parse : String → Option Nat} {imgs : List EC2Image}
    (hall : ∀ i ∈ imgs, (parse i.creationDate).isSome) {i : EC2Image} (hi : i ∈ imgs)
    {t : Nat} (ht : parse i.creationDate = some t) :
    ({ ID := i.imageId, CreationDate := t } : Ami) ∈ collectAmis parse imgs := by
  induction imgs with
  | nil => cases hi
  | cons img rest ih =>
    have hhead : (parse img.creationDate).isSome := hall img (List.mem_cons_self _ _)
    cases hp : parse img.creationDate with
    | none => rw [hp] at hhead; cases hhead
    | some u =>
      simp only [collectAmis, hp]
      rcases List.mem_cons.mp hi with rfl | h2
      · have : t = u := by
          have := ht.symm.trans hp
          exact Option.some.inj this
        rw [this]
        exact List.mem_cons_self _ _
      · exact List.mem_cons_of_mem _
          (ih (fun j hj => hall j (List.mem_cons_of_mem _ hj)) h2)

/-- A nonempty all-parseable listing collects a nonempty candidate list. -/
theorem collectAmis_ne_nil {parse : String → Option Nat} {imgs : List EC2Image}
    (hne : imgs ≠ []) (hall : ∀ i ∈ imgs, (parse i.creationDate).isSome) :
    collectAmis parse imgs ≠ [] := by
  cases imgs with
  | nil => cases hne rfl
  | cons img rest =>
    have hhead : (parse img.creationDate).isSome := hall img (List.mem_cons_self _ _)
    cases hp : parse img.creationDate with
    | none => rw [hp] at hhead; cases hhead
    | some t => simp [collectAmis, hp]

/-- The head of the insertion-sorted candidate list attains the maximal
creation date of the unsorted list. -/
theorem sortedHead_max {l : List Ami} {a : Ami} {rest : List Ami}
    (h : l.insertionSort amiBefore = a :: rest) :
    ∀ b ∈ l, b.CreationDate ≤ a.CreationDate := by
  intro b hb
  have hperm := List.perm_insertionSort amiBefore l
  have hsor := List.sorted_insertionSort amiBefore l
  rw [h] at hperm hsor
  have hb2 : b ∈ a :: rest := hperm.mem_iff.mpr hb
  rcases List.mem_cons.mp hb2 with rfl | hbr
  · exact Nat.le_refl _
  · exact (List.sorted_cons.mp hsor).1 b hbr

/-- The trace of findAMI is always exactly the one DescribeImages call. -/
theorem findAMI_trace (client : EC2Client) (parse : String → Option Nat) (name : String) :
    (findAMI client parse name).2 = [.describeImages (findAMIFilters name)] := by
  simp only [findAMI]
  cases client.describeImages (findAMIFilters name) with
  | error e => rfl
  | ok imgs =>
    cases hs : (collectAmis parse imgs).insertionSort amiBefore with
    | nil => simp [hs]
    | cons a rest => simp [hs]

/-- When some listed VPC is flagged default, the search loop returns the
first such VPC. -/
theorem findDefaultVpc_some {vpcs : List Vpc} (hdef : ∃ v ∈ vpcs, v.isDefault = true) :
    ∃ v, findDefaultVpc vpcs = some v ∧ v ∈ vpcs ∧ v.isDefault = true := by
  induction vpcs with
  | nil => rcases hdef with ⟨v, hv, _⟩; cases hv
  | cons w rest ih =>
    by_cases hw : w.isDefault = true
    · exact ⟨w, by simp [findDefaultVpc, hw], List.mem_cons_self _ _, hw⟩
    · rcases hdef with ⟨v, hv, hvd⟩
      rcases List.mem_cons.mp hv with rfl | hv2
      · exact absurd hvd hw
      · rcases ih ⟨v, hv2, hvd⟩ with ⟨u, h1, h2, h3⟩
        exact ⟨u, by simp [findDefaultVpc, hw, h1], List.mem_cons_of_mem _ h2, h3⟩

/-- The two candidate-collection loops of the two source files are the same
function. -/
theorem collectAmis_eq_part000 (parse : String → Option Nat) (imgs : List EC2Image) :
    collectAmis parse imgs = Part000.collectAmis parse imgs := by
  induction imgs with
  | nil => rfl
  | cons img rest ih =>
    simp only [collectAmis, Part000.collectAmis]
    cases parse img.creationDate with
    | none => rfl
    | some t => rw [ih]

/-- C1: for every backend image listing whose filtered candidates are
non-empty and all carry parseable RFC3339 creation timestamps, findAMI
succeeds and returns the identifier of a candidate whose creation timestamp
is maximal among the filtered set; with two or more candidates tied at the
maximum it still returns exactly one of them and does not fail. -/
theorem findAMI_returns_latest (client : EC2Client) (parse : String → Option Nat)
    (name : String) (imgs : List EC2Image)
    (hresp : client.describeImages (findAMIFilters name) = .ok imgs)
    (hne : imgs ≠ [])
    (hall : ∀ i ∈ imgs, (parse i.creationDate).isSome) :
    ∃ i ∈ imgs, ∃ t : Nat, parse i.creationDate = some t ∧
      (findAMI client parse name).1 = .ok i.imageId ∧
      ∀ j ∈ imgs, ∀ u : Nat, parse j.creationDate = some u → u ≤ t := by
  have hLne := collectAmis_ne_nil hne hall
  cases hsort : (collectAmis parse imgs).insertionSort amiBefore with
  | nil =>
    exfalso
    apply hLne
    have hperm := List.perm_insertionSort amiBefore (collectAmis parse imgs)
    rw [hsort] at hperm
    exact (hperm.symm).eq_nil
  | cons a rest =>
    have hmem : a ∈ collectAmis parse imgs := by
      have hperm := List.perm_insertionSort amiBefore (collectAmis parse imgs)
      rw [hsort] at hperm
      exact hperm.subset (List.mem_cons_self _ _)
    rcases mem_collectAmis hmem with ⟨i, hi, hid, hdate⟩
    refine ⟨i, hi, a.CreationDate, hdate, ?_, ?_⟩
    · simp only [findAMI, hresp, hsort]
      rw [hid]
    · intro j hj u hu
      exact sortedHead_max hsort _ (collectAmis_mem_of_all hall hj hu)

/-- Witness for findAMI_returns_latest on a backend with exactly two
candidates tied at the maximal creation date. -/
theorem findAMI_returns_latest_witness :
    ∃ i ∈ [imgTiedA, imgTiedB], ∃ t : Nat, demoParse i.creationDate = some t ∧
      (findAMI tiedClient demoParse "ubuntu").1 = .ok i.imageId ∧
      ∀ j ∈ [imgTiedA, imgTiedB], ∀ u : Nat, demoParse j.creationDate = some u → u ≤ t :=
  findAMI_returns_latest tiedClient demoParse "ubuntu" [imgTiedA, imgTiedB] rfl
    (List.cons_ne_nil _ _) (by decide)

/-- C2 is refuted by the code: on a backend whose filtered image listing is
empty, findAMI does not fail with NotFoundError; it reads the first element
of the empty candidate slice, which is an index-out-of-range panic. -/
theorem findAMI_empty_listing_panics :
    findAMI emptyImagesClient demoParse "ubuntu" =
      (.error (.goPanic "index out of range"),
        [.describeImages (findAMIFilters "ubuntu")]) := rfl

/-- C3 is refuted by the code: with an unparsable creation date first in the
listing and two parseable candidates after it, the collection loop breaks at
the first candidate (discarding the parseable ones) and findAMI then panics
on the empty collected list instead of succeeding with the later maximal
candidate. -/
theorem findAMI_break_discards_later_candidates :
    findAMI badFirstClient demoParse "ubuntu" =
      (.error (.goPanic "index out of range"),
        [.describeImages (findAMIFilters "ubuntu")]) := rfl

/-- C4 is refuted by the code: when DescribeInstances succeeds but reports
zero matching reservations, Status does not fail with NotFoundError; it
reads Reservations[0] of the empty result, an index-out-of-range panic. -/
theorem status_no_reservations_panics :
    Status noReservationsClient "i-0000" =
      (.error (.goPanic "index out of range"), [.describeInstances "i-0000"]) := rfl

/-- C5: every successful ingress-boundary creation authorizes exactly one
ingress call carrying exactly three inbound TCP allow rules with source
range 0.0.0.0/0, on ports 80, 443 and the given tunnel port, for the
created group; nothing else is authorized. -/
theorem createSecurityGroup_three_rules (client : EC2Client) (vpcID hostname : String)
    (inletsPort : Int) (groupId : String)
    (hok : (createSecurityGroup client vpcID hostname inletsPort).1 = .ok groupId) :
    (createSecurityGroup client vpcID hostname inletsPort).2 =
      [ .createSecurityGroupCall "Inlets security group" ("inlets-sg-" ++ hostname) vpcID,
        .authorizeSecurityGroupIngress groupId
          [ { ipProtocol := "tcp", fromPort := 80, toPort := 80,
              ipRanges := ["0.0.0.0/0"] },
            { ipProtocol := "tcp", fromPort := 443, toPort := 443,
              ipRanges := ["0.0.0.0/0"] },
            { ipProtocol := "tcp", fromPort := inletsPort, toPort := inletsPort,
              ipRanges := ["0.0.0.0/0"] } ] ] := by
  cases hc : client.createSecurityGroup "Inlets security group"
      ("inlets-sg-" ++ hostname) vpcID with
  | error e =>
    exfalso
    simp only [createSecurityGroup, hc] at hok
    exact absurd hok (by simp)
  | ok gid =>
    cases ha : client.authorizeSecurityGroupIngress gid (ingressPermissions inletsPort) with
    | error e =>
      exfalso
      simp only [createSecurityGroup, hc, ha] at hok
      exact absurd hok (by simp)
    | ok u =>
      have hg : gid = groupId := by
        simp only [createSecurityGroup, hc, ha] at hok
        simpa using hok
      subst hg
      simp only [createSecurityGroup, hc, ha]
      simp [ingressPermissions]

/-- Witness for createSecurityGroup_three_rules on the concrete succeeding
backend with tunnel port 8080. -/
theorem createSecurityGroup_three_rules_witness :
    (createSecurityGroup okClient "vpc-1" "host1" 8080).2 =
      [ .createSecurityGroupCall "Inlets security group" ("inlets-sg-" ++ "host1") "vpc-1",
        .authorizeSecurityGroupIngress "sg-1"
          [ { ipProtocol := "tcp", fromPort := 80, toPort := 80,
              ipRanges := ["0.0.0.0/0"] },
            { ipProtocol := "tcp", fromPort := 443, toPort := 443,
              ipRanges := ["0.0.0.0/0"] },
            { ipProtocol := "tcp", fromPort := 8080, toPort := 8080,
              ipRanges := ["0.0.0.0/0"] } ] ] :=
  createSecurityGroup_three_rules okClient "vpc-1" "host1" 8080 "sg-1" rfl

/-- C6: when the backend listing holds a VPC flagged default,
getOrCreateDefaultVPC returns the identifier of the first such VPC and its
trace is the single describe call, with no creation call issued; as the
operation is a pure function of the unchanged backend state, an immediately
repeated call returns the identical identifier and again creates nothing. -/
theorem getOrCreateDefaultVPC_idempotent (client : EC2Client) (vpcs : List Vpc)
    (hresp : client.describeVpcs = .ok vpcs)
    (hdef : ∃ v ∈ vpcs, v.isDefault = true) :
    ∃ v ∈ vpcs, v.isDefault = true ∧
      getOrCreateDefaultVPC client = (.ok v.vpcId, [.describeVpcs]) ∧
      ApiCall.createDefaultVpc ∉ (getOrCreateDefaultVPC client).2 := by
  rcases findDefaultVpc_some hdef with ⟨v, hfind, hv, hvd⟩
  have hval : getOrCreateDefaultVPC client = (.ok v.vpcId, [.describeVpcs]) := by
    simp only [getOrCreateDefaultVPC, hresp, hfind]
  refine ⟨v, hv, hvd, hval, ?_⟩
  rw [hval]
  simp

/-- Witness for getOrCreateDefaultVPC_idempotent on the concrete backend
whose listing holds the default VPC fixture. -/
theorem getOrCreateDefaultVPC_idempotent_witness :
    ∃ v ∈ [vpcDefault], v.isDefault = true ∧
      getOrCreateDefaultVPC okClient = (.ok v.vpcId, [.describeVpcs]) ∧
      ApiCall.createDefaultVpc ∉ (getOrCreateDefaultVPC okClient).2 :=
  getOrCreateDefaultVPC_idempotent okClient [vpcDefault] rfl
    ⟨vpcDefault, List.mem_cons_self _ _, rfl⟩

/-- C7: status normalization is a pure total function on provider state
strings: the input running maps to the distinguished canonical ActiveStatus
value and every other string is returned unchanged. -/
theorem normalizeState_running_active :
    normalizeState "running" = ActiveStatus ∧
      ∀ s : String, s ≠ "running" → normalizeState s = s := by
  refine ⟨rfl, ?_⟩
  intro s hs
  simp [normalizeState, hs]

/-- Witness for normalizeState_running_active at the pass-through input
terminated. -/
theorem normalizeState_running_active_witness :
    normalizeState "terminated" = "terminated" :=
  normalizeState_running_active.2 "terminated" (by decide)

/-- C8 as stated is false at tunnel port 0: on a backend accepting the
calls, createSecurityGroup with a port outside 1-65535 does not fail with
ValidationError before any backend call; it succeeds, and its trace of
backend calls is nonempty. -/
theorem createSecurityGroup_port_zero_counterexample :
    (createSecurityGroup okClient "vpc-1" "host1" 0).1 = .ok "sg-1" ∧
      (createSecurityGroup okClient "vpc-1" "host1" 0).1 ≠ .error Err.validation ∧
      (createSecurityGroup okClient "vpc-1" "host1" 0).2 ≠ [] := by
  refine ⟨rfl, fun h => ?_, fun h => ?_⟩
  · exact Except.noConfusion h
  · exact List.noConfusion h

/-- C8 amended: the code performs no tunnel-port validation at all; for
every port value, in range or not, the very first action of
createSecurityGroup is the backend group-creation call, and its result is
never ValidationError. -/
theorem createSecurityGroup_no_port_validation (client : EC2Client)
    (vpcID hostname : String) (inletsPort : Int) :
    (createSecurityGroup client vpcID hostname inletsPort).2.head? =
        some (.createSecurityGroupCall "Inlets security group"
          ("inlets-sg-" ++ hostname) vpcID) ∧
      (createSecurityGroup client vpcID hostname inletsPort).1 ≠
        .error Err.validation := by
  cases hc : client.createSecurityGroup "Inlets security group"
      ("inlets-sg-" ++ hostname) vpcID with
  | error e =>
    exact ⟨by simp [createSecurityGroup, hc], by simp [createSecurityGroup, hc]⟩
  | ok gid =>
    cases ha : client.authorizeSecurityGroupIngress gid (ingressPermissions inletsPort) with
    | error e =>
      exact ⟨by simp [createSecurityGroup, hc, ha], by simp [createSecurityGroup, hc, ha]⟩
    | ok u =>
      exact ⟨by simp [createSecurityGroup, hc, ha], by simp [createSecurityGroup, hc, ha]⟩

/-- C9 as stated is false: on a backend whose image query succeeds, a host
request lacking the tunnel-port key makes Provision fail with the
integer-parse error, but only after the image-resolution DescribeImages
backend query has been issued; the trace of network calls at the failure is
not empty. -/
theorem provision_missing_port_counterexample :
    Provision okClient demoParse hostNoPort =
      (.error (.parseIntErr ""), [.describeImages (findAMIFilters "ubuntu")]) ∧
      (Provision okClient demoParse hostNoPort).2 ≠ [] := by
  refine ⟨rfl, fun h => ?_⟩
  exact List.noConfusion h

/-- C9 amended: whenever image resolution succeeds and the tunnel-port
extra parameter is missing or not parseable as an integer, Provision fails
with the parse (validation) error and its trace is exactly the single
image-resolution DescribeImages call: the failure comes after the image
query but before any VPC, security-group or instance call. -/
theorem provision_missing_port_after_image_query (client : EC2Client)
    (parse : String → Option Nat) (host : BasicHost) (amiId : String)
    (hami : (findAMI client parse host.OS).1 = .ok amiId)
    (hport : parseInt64 (mapGet host.Additional "inlets-port") = none) :
    Provision client parse host =
      (.error (.parseIntErr (mapGet host.Additional "inlets-port")),
        [.describeImages (findAMIFilters host.OS)]) := by
  have htr := findAMI_trace client parse host.OS
  cases hfa : findAMI client parse host.OS with
  | mk res t1 =>
    have hres : res = .ok amiId := by rw [hfa] at hami; exact hami
    have ht1 : t1 = [.describeImages (findAMIFilters host.OS)] := by
      rw [hfa] at htr; exact htr
    subst hres ht1
    simp only [Provision, hfa, hport]

/-- Witness for provision_missing_port_after_image_query on the concrete
succeeding backend and the host request lacking the tunnel-port key. -/
theorem provision_missing_port_after_image_query_witness :
    Provision okClient demoParse hostNoPort =
      (.error (.parseIntErr (mapGet hostNoPort.Additional "inlets-port")),
        [.describeImages (findAMIFilters hostNoPort.OS)]) :=
  provision_missing_port_after_image_query okClient demoParse hostNoPort "img-2" rfl rfl

/-- C10: the findAMI and reservationToPrivionedHost definitions appearing in
the two source files are extensionally equal: same result and same backend
calls on every client and listing, and the same ProvisionedHost on every
reservation. -/
theorem duplicate_definitions_agree :
    (∀ (client : EC2Client) (parse : String → Option Nat) (name : String),
        findAMI client parse name = Part000.findAMI client parse name) ∧
      ∀ r : Reservation,
        reservationToPrivionedHost r = Part000.reservationToPrivionedHost r := by
  constructor
  · intro client parse name
    simp only [findAMI, Part000.findAMI, collectAmis_eq_part000]
  · intro r
    cases r with
    | mk insts =>
      cases insts with
      | nil => rfl
      | cons firstInstance rest => rfl
